import Mathlib

/-!
Verification of the tensile-test mechanical-properties analysis engine
(`gui/results_analyzer.py`).  The numeric code is embedded shallowly over
`ℚ` (exact rational arithmetic as the idealisation of Python floats);
`np.log` is modelled as an uninterpreted function parameter `rlog` (no
claim depends on its values), and Python's float formatting used in
validation notes is modelled as an uninterpreted parameter `fmt3`.
Python lists are Lean `List ℚ`, appended at the tail as the code appends.
Python float division raises `ZeroDivisionError` exactly when the divisor
is zero, so the one method that divides by configuration values
(`add_data_point`) returns `Option`, `none` modelling the exception.
-/

namespace TensileTester

/-- Model of `np.max` over a list; numpy raises on an empty array, every call site
here guards non-emptiness, and the `[]` case is an arbitrary default. -/
def npMax : List ℚ → ℚ
  | [] => 0
  | [x] => x
  | x :: y :: xs => max x (npMax (y :: xs))

/-- Model of `np.min` over a list (same conventions as `npMax`). -/
def npMin : List ℚ → ℚ
  | [] => 0
  | [x] => x
  | x :: y :: xs => min x (npMin (y :: xs))

/-- Model of `np.argmax`: index of the FIRST occurrence of the maximum. -/
def npArgmax : List ℚ → Nat
  | [] => 0
  | [_] => 0
  | x :: y :: xs => if x < npMax (y :: xs) then npArgmax (y :: xs) + 1 else 0

/-- Model of `np.trapz(y, x)`: trapezoidal integral
`Σ (y[i-1]+y[i])/2 * (x[i]-x[i-1])`. -/
def trapz : List ℚ → List ℚ → ℚ
  | y0 :: y1 :: ys, x0 :: x1 :: xs =>
      (y0 + y1) / 2 * (x1 - x0) + trapz (y1 :: ys) (x1 :: xs)
  | _, _ => 0

/-- Linear forward scan over indices `i, i+1, ..., i+k-1`, returning the
first index satisfying `p` (models a Python `for i in range(a, b)` loop
with an early `return i`). -/
def scanFirst (p : Nat → Bool) : Nat → Nat → Option Nat
  | _, 0 => none
  | i, k + 1 => if p i then some i else scanFirst p (i + 1) k

/-- One step of `np.searchsorted`'s binary search (side='left');
fuel-based, the interval halves each iteration so `length + 1` fuel
always suffices. -/
def ssLoop (a : List ℚ) (v : ℚ) : Nat → Nat → Nat → Nat
  | 0, lo, _ => lo
  | fuel + 1, lo, hi =>
      if lo < hi then
        let mid := (lo + hi) / 2
        if a.getD mid 0 < v then ssLoop a v fuel (mid + 1) hi
        else ssLoop a v fuel lo mid
      else lo

/-- Model of `np.searchsorted(a, v)` with the default side, 'left'. -/
def searchsorted (a : List ℚ) (v : ℚ) : Nat :=
  ssLoop a v (a.length + 1) 0 a.length

/-- The `FailureType` enum from the source. -/
inductive FailureType where
  | BRITTLE
  | DUCTILE
  | NECKING
  | GRIP_FAILURE
  | PARTIAL_BREAK
  | NO_BREAK
  | UNKNOWN
  deriving DecidableEq

/-- The `BreakLocation` enum from the source. -/
inductive BreakLocation where
  | CENTER
  | QUARTER
  | NEAR_GRIP
  | AT_GRIP
  | OUTSIDE_GAUGE
  | UNKNOWN
  deriving DecidableEq

/-- The `TestDataPoint` dataclass: a single recorded sample. -/
structure TestDataPoint where
  time : ℚ
  force : ℚ
  extension : ℚ
  displacement : ℚ
  stress : ℚ
  strain : ℚ
  deriving DecidableEq, Inhabited

/-- The `MechanicalProperties` dataclass with its field defaults. -/
structure MechanicalProperties where
  ultimate_tensile_strength : ℚ := 0
  yield_strength_offset : ℚ := 0
  yield_strength_upper : ℚ := 0
  yield_strength_lower : ℚ := 0
  break_stress : ℚ := 0
  youngs_modulus : ℚ := 0
  modulus_chord : ℚ := 0
  modulus_secant : ℚ := 0
  strain_at_yield : ℚ := 0
  strain_at_uts : ℚ := 0
  strain_at_break : ℚ := 0
  elongation_at_break : ℚ := 0
  uniform_elongation : ℚ := 0
  max_force : ℚ := 0
  force_at_yield : ℚ := 0
  force_at_break : ℚ := 0
  extension_at_yield : ℚ := 0
  extension_at_uts : ℚ := 0
  extension_at_break : ℚ := 0
  energy_to_yield : ℚ := 0
  energy_to_uts : ℚ := 0
  energy_to_break : ℚ := 0
  true_stress_at_uts : ℚ := 0
  true_strain_at_uts : ℚ := 0
  failure_type : FailureType := .UNKNOWN
  break_location : BreakLocation := .UNKNOWN
  modulus_r_squared : ℚ := 0
  is_valid_test : Bool := true
  validity_notes : String := ""
  deriving DecidableEq

/-- The all-defaults record `MechanicalProperties()`. -/
instance : Inhabited MechanicalProperties := ⟨{}⟩

/-- The `LiveCalculations` dataclass with its field defaults. -/
structure LiveCalculations where
  current_stress : ℚ := 0
  current_strain : ℚ := 0
  current_true_stress : ℚ := 0
  current_true_strain : ℚ := 0
  loading_rate_force : ℚ := 0
  loading_rate_stress : ℚ := 0
  strain_rate : ℚ := 0
  displacement_rate : ℚ := 0
  energy_absorbed : ℚ := 0
  instantaneous_modulus : ℚ := 0
  test_stage : String := "Idle"
  deriving DecidableEq, Inhabited

/-- The mutable state of a `ResultsAnalyzer` instance. -/
structure ResultsAnalyzer where
  gauge_length : ℚ
  cross_section_area : ℚ
  data : List TestDataPoint
  time_data : List ℚ
  force_data : List ℚ
  extension_data : List ℚ
  displacement_data : List ℚ
  stress_data : List ℚ
  strain_data : List ℚ
  yield_offset : ℚ
  modulus_strain_start : ℚ
  modulus_strain_end : ℚ
  break_detection_drop : ℚ
  live : LiveCalculations
  deriving DecidableEq

/-- Model of `ResultsAnalyzer.__init__(gauge_length, cross_section_area)`: the
constructor stores the geometry as given (no validation) and sets the
configuration constants. -/
def mkResultsAnalyzer (gauge_length cross_section_area : ℚ) : ResultsAnalyzer where
  gauge_length := gauge_length
  cross_section_area := cross_section_area
  data := []
  time_data := []
  force_data := []
  extension_data := []
  displacement_data := []
  stress_data := []
  strain_data := []
  yield_offset := 2 / 1000
  modulus_strain_start := 5 / 10000
  modulus_strain_end := 25 / 10000
  break_detection_drop := 1 / 2
  live := {}

/-- Model of `_determine_test_stage`: classify the current stage of the test from
the buffered data and the live loading rate, in the source's check order. -/
def determineTestStage (a : ResultsAnalyzer) : String :=
  if a.data.length < 5 then "Starting"
  else
    let current := a.data.getLastD default
    let max_force := npMax a.force_data
    let max_stress := npMax a.stress_data
    if current.force < 1/2 * max_force ∧ max_force > 10 then "Break Detected"
    else if current.strain < 1/100 ∧ a.live.loading_rate_force > 0 then "Elastic Region"
    else if a.stress_data.length > 20 ∧
        (npMax (a.stress_data.drop (a.stress_data.length - 20)) -
           npMin (a.stress_data.drop (a.stress_data.length - 20)) < 5/100 * max_stress ∧
         current.strain > 5/1000) then "Yielding"
    else if current.stress > 4/5 * max_stress then "Strain Hardening"
    else "Post-Yield"

/-- Model of `_update_live_calculations`: early-return when fewer than two samples,
otherwise update current values, true stress/strain (via `rlog`, modelling
`np.log`), rates (guarded by `dt > 0`), the incremental trapezoidal energy,
the windowed instantaneous modulus, and finally the test stage. -/
def updateLiveCalculations (rlog : ℚ → ℚ) (a : ResultsAnalyzer) : ResultsAnalyzer :=
  if a.data.length < 2 then a
  else
    let current := a.data.getLastD default
    let prev := a.data.dropLast.getLastD default
    let l1 := { a.live with current_stress := current.stress, current_strain := current.strain }
    let l2 := if current.strain < 1/2 then
        { l1 with current_true_strain := rlog (1 + current.strain),
                  current_true_stress := current.stress * (1 + current.strain) }
      else l1
    let dt := current.time - prev.time
    let l3 := if dt > 0 then
        { l2 with loading_rate_force := (current.force - prev.force) / dt,
                  loading_rate_stress := (current.stress - prev.stress) / dt,
                  strain_rate := (current.strain - prev.strain) / dt,
                  displacement_rate := (current.displacement - prev.displacement) / dt }
      else l2
    let d_ext := current.extension - prev.extension
    let avg_force := (current.force + prev.force) / 2
    let l4 := { l3 with energy_absorbed := l3.energy_absorbed + avg_force * d_ext / 1000 }
    let l5 := if 10 ≤ a.data.length then
        let recent_stress := a.stress_data.drop (a.stress_data.length - 10)
        let recent_strain := a.strain_data.drop (a.strain_data.length - 10)
        let d_strain := recent_strain.getLastD 0 - recent_strain.headD 0
        if d_strain > 1/1000000 then
          { l4 with instantaneous_modulus :=
              (recent_stress.getLastD 0 - recent_stress.headD 0) / d_strain }
        else l4
      else l4
    let a1 := { a with live := l5 }
    { a1 with live := { l5 with test_stage := determineTestStage a1 } }

/-- Model of `add_data_point(time, force, extension, displacement=None)`: derive
stress and strain from the geometry, append everything, update live state.
Python float division raises `ZeroDivisionError` when the stored area (or
gauge length) is exactly zero; that exception is model­led by `none`. -/
def addDataPoint (rlog : ℚ → ℚ) (a : ResultsAnalyzer)
    (time force extension : ℚ) (displacement : Option ℚ) : Option ResultsAnalyzer :=
  let displacement := displacement.getD extension
  if a.cross_section_area = 0 ∨ a.gauge_length = 0 then none
  else
    let stress := force / a.cross_section_area
    let strain := extension / a.gauge_length
    let point : TestDataPoint := ⟨time, force, extension, displacement, stress, strain⟩
    let a1 := { a with
      data := a.data ++ [point],
      time_data := a.time_data ++ [time],
      force_data := a.force_data ++ [force],
      extension_data := a.extension_data ++ [extension],
      displacement_data := a.displacement_data ++ [displacement],
      stress_data := a.stress_data ++ [stress],
      strain_data := a.strain_data ++ [strain] }
    some (updateLiveCalculations rlog a1)

/-- A raw `(time, force, extension)` sample as fed to `add_data_point`. -/
structure RawSample where
  time : ℚ
  force : ℚ
  extension : ℚ
  deriving DecidableEq

/-- Feed a list of raw samples one at a time through `add_data_point`. -/
def feedAll (rlog : ℚ → ℚ) (a : ResultsAnalyzer) : List RawSample → Option ResultsAnalyzer
  | [] => some a
  | s :: rest =>
    match addDataPoint rlog a s.time s.force s.extension none with
    | none => none
    | some a1 => feedAll rlog a1 rest

/-- Model of `_find_break_point(force)`: scan forward from the first index of the
maximum force for the first sample below `break_detection_drop × max`;
if none, the last index. -/
def findBreakPoint (break_detection_drop : ℚ) (force : List ℚ) : Nat :=
  let max_force := npMax force
  let max_idx := npArgmax force
  match scanFirst (fun i => decide (force.getD i 0 < break_detection_drop * max_force))
      max_idx (force.length - max_idx) with
  | some i => i
  | none => force.length - 1

/-- Model of `_calculate_youngs_modulus(stress, strain)`.  `np.polyfit(x, y, 1)` is
the degree-one least-squares fit; whenever the selected strain values are
not all equal the design matrix has full rank and the fit is given by the
normal equations used here (`slope = (nΣxy − ΣxΣy)/(nΣx² − (Σx)²)`,
`intercept = (Σy − slope·Σx)/n`).  The rank-deficient case (all selected
strains equal) makes the denominator zero, and `ℚ` division by zero gives
slope `0` — numpy instead emits a `RankWarning` with an arbitrary fit; no
claim touches that case.  `polyfit` raises no exception on these inputs,
so the `try/except` arm is dead code here. -/
def calculateYoungsModulus (modulus_strain_start modulus_strain_end : ℚ)
    (stress strain : List ℚ) : ℚ × ℚ :=
  let pairs := strain.zip stress
  let sel0 := pairs.filter
    (fun p => decide (modulus_strain_start ≤ p.1 ∧ p.1 ≤ modulus_strain_end))
  let sel := if sel0.length < 5 then
      pairs.filter (fun p => decide (1/10000 ≤ p.1 ∧ p.1 ≤ 1/100))
    else sel0
  if sel.length < 5 then (0, 0)
  else
    let n : ℚ := sel.length
    let sx := (sel.map (fun p => p.1)).sum
    let sy := (sel.map (fun p => p.2)).sum
    let sxx := (sel.map (fun p => p.1 * p.1)).sum
    let sxy := (sel.map (fun p => p.1 * p.2)).sum
    let slope := (n * sxy - sx * sy) / (n * sxx - sx * sx)
    let intercept := (sy - slope * sx) / n
    let ss_res : ℚ := (sel.map (fun p => (p.2 - (slope * p.1 + intercept)) ^ 2)).sum
    let ss_tot : ℚ := (sel.map (fun p => (p.2 - sy / n) ^ 2)).sum
    let r_squared := if ss_tot > 0 then 1 - ss_res / ss_tot else 0
    (slope, r_squared)

/-- The pointwise difference `stress − E·(strain − yield_offset)` between
the engineering curve and the offset line, as scanned by
`_calculate_yield_strength` (`diff = stress - offset_line` there). -/
def offsetDiff (yield_offset modulus : ℚ) (stress strain : List ℚ) (i : Nat) : ℚ :=
  stress.getD i 0 - modulus * (strain.getD i 0 - yield_offset)

/-- Model of `_calculate_yield_strength(stress, strain, force, extension, modulus)`:
0.2 %-offset method; scan for the first sign change of
`diff = stress − E·(strain − yield_offset)` from positive to ≤ 0 and
interpolate linearly; all-zero when `E ≤ 0` or no crossing exists. -/
def calculateYieldStrength (yield_offset : ℚ) (stress strain force extension : List ℚ)
    (modulus : ℚ) : ℚ × ℚ × ℚ × ℚ :=
  if modulus ≤ 0 then (0, 0, 0, 0)
  else
    let diff := offsetDiff yield_offset modulus stress strain
    match scanFirst (fun i => decide (diff (i - 1) > 0 ∧ diff i ≤ 0)) 1 (stress.length - 1) with
    | some i =>
        let t := diff (i - 1) / (diff (i - 1) - diff i)
        (stress.getD (i - 1) 0 + t * (stress.getD i 0 - stress.getD (i - 1) 0),
         strain.getD (i - 1) 0 + t * (strain.getD i 0 - strain.getD (i - 1) 0),
         force.getD (i - 1) 0 + t * (force.getD i 0 - force.getD (i - 1) 0),
         extension.getD (i - 1) 0 + t * (extension.getD i 0 - extension.getD (i - 1) 0))
    | none => (0, 0, 0, 0)

/-- Model of `_determine_failure_type(stress, strain, uts_idx, break_idx)` (the
`stress` argument is unused in the source as well). -/
def determineFailureType (stress strain : List ℚ) (uts_idx break_idx : Nat) : FailureType :=
  let strain_at_break := strain.getD break_idx 0
  if strain_at_break < 1/50 then .BRITTLE
  else
    let post_uts_strain := strain.getD break_idx 0 - strain.getD uts_idx 0
    if post_uts_strain > 1/20 then .NECKING
    else if strain_at_break > 1/20 then .DUCTILE
    else .UNKNOWN

/-- Model of `_validate_test(results)`: append quality notes in source order and
set the validity flag; `fmt3` models Python's `"%.3f"`-style formatting of
the R² value inside the note text. -/
def validateTest (fmt3 : ℚ → String) (results : MechanicalProperties) : MechanicalProperties :=
  let notes : List String := []
  let notes := if results.modulus_r_squared < 99/100 then
      notes ++ ["Modulus fit R²=" ++ fmt3 results.modulus_r_squared ++ " (ideal > 0.99)"]
    else notes
  let notes := if results.youngs_modulus ≤ 0 then
      notes ++ ["Could not determine Young's modulus"] else notes
  let results := if results.youngs_modulus ≤ 0 then
      { results with is_valid_test := false } else results
  let notes := if results.yield_strength_offset ≤ 0 then
      notes ++ ["Could not determine yield strength"] else notes
  let notes := if results.ultimate_tensile_strength < results.yield_strength_offset then
      notes ++ ["UTS less than yield strength (unusual)"] else notes
  let notes := if results.elongation_at_break ≤ 0 then
      notes ++ ["No elongation at break recorded"] else notes
  let sep : String := "; "
  { results with validity_notes :=
      if notes ≠ [] then String.intercalate sep notes else "Test valid" }

/-- Model of `calculate_results()`: the batch property calculator.  Fields never
assigned by the source keep their dataclass defaults. -/
def calculateResults (rlog : ℚ → ℚ) (fmt3 : ℚ → String) (a : ResultsAnalyzer) :
    MechanicalProperties :=
  if a.data.length < 10 then
    { is_valid_test := false, validity_notes := "Insufficient data points" }
  else
    let force := a.force_data
    let extension := a.extension_data
    let stress := a.stress_data
    let strain := a.strain_data
    let uts_idx := npArgmax stress
    let break_idx := findBreakPoint a.break_detection_drop force
    let mr := calculateYoungsModulus a.modulus_strain_start a.modulus_strain_end stress strain
    let yr := calculateYieldStrength a.yield_offset stress strain force extension mr.1
    let energy_to_yield :=
      if yr.2.1 > 0 then
        let yield_idx := searchsorted strain yr.2.1
        if 0 < yield_idx then
          trapz (force.take yield_idx) (extension.take yield_idx) / 1000
        else 0
      else 0
    validateTest fmt3 {
      max_force := npMax force,
      ultimate_tensile_strength := stress.getD uts_idx 0,
      strain_at_uts := strain.getD uts_idx 0,
      extension_at_uts := extension.getD uts_idx 0,
      force_at_break := force.getD break_idx 0,
      break_stress := stress.getD break_idx 0,
      strain_at_break := strain.getD break_idx 0,
      extension_at_break := extension.getD break_idx 0,
      elongation_at_break := strain.getD break_idx 0 * 100,
      uniform_elongation := strain.getD uts_idx 0 * 100,
      youngs_modulus := mr.1,
      modulus_r_squared := mr.2,
      yield_strength_offset := yr.1,
      strain_at_yield := yr.2.1,
      force_at_yield := yr.2.2.1,
      extension_at_yield := yr.2.2.2,
      energy_to_break := trapz force extension / 1000,
      energy_to_yield := energy_to_yield,
      energy_to_uts := trapz (force.take (uts_idx + 1)) (extension.take (uts_idx + 1)) / 1000,
      true_strain_at_uts := rlog (1 + strain.getD uts_idx 0),
      true_stress_at_uts := stress.getD uts_idx 0 * (1 + strain.getD uts_idx 0),
      failure_type := determineFailureType stress strain uts_idx break_idx }

/-- Model of `calculate_results` viewed as a state transformer.  The Python method
and every helper it calls (`_find_break_point`, `_calculate_youngs_modulus`,
`_calculate_yield_strength`, `_determine_failure_type`, `_validate_test`)
contain no assignment to any attribute of `self` — they only read the
frozen arrays and configuration — so the translated method returns the
analyzer state unchanged alongside the result value. -/
def calculateResultsS (rlog : ℚ → ℚ) (fmt3 : ℚ → String) (a : ResultsAnalyzer) :
    MechanicalProperties × ResultsAnalyzer :=
  (calculateResults rlog fmt3 a, a)

/-- Concrete stand-in for `np.log` used to evaluate the model (nothing
proved here depends on logarithm values). -/
def rl0 : ℚ → ℚ := fun _ => 0

/-- Concrete stand-in for the note formatting of the R² value. -/
def fm0 : ℚ → String := fun _ => "0.000"

/-- The state invariant linking the stored arrays: the per-channel lists
mirror the `data` list, and the live energy equals the batch trapezoidal
integral of force over extension (mm→m). -/
def Coherent (a : ResultsAnalyzer) : Prop :=
  a.force_data = a.data.map (fun p => p.force) ∧
  a.extension_data = a.data.map (fun p => p.extension) ∧
  a.live.energy_absorbed = trapz a.force_data a.extension_data / 1000


/-- The strain/stress pairs falling in the default modulus strain window
`[0.0005, 0.0025]`. -/
def modulusWindowPairs (stress strain : List ℚ) : List (ℚ × ℚ) :=
  (strain.zip stress).filter (fun p => decide (5/10000 ≤ p.1 ∧ p.1 ≤ 25/10000))

/-- The denominator `n·Σx² − (Σx)²` of the ordinary-least-squares slope
over a selection of (strain, stress) pairs; positive exactly when the
selected strains are not all equal. -/
def olsDenom (sel : List (ℚ × ℚ)) : ℚ :=
  (sel.length : ℚ) * (sel.map (fun p => p.1 * p.1)).sum -
    (sel.map (fun p => p.1)).sum * (sel.map (fun p => p.1)).sum

/-- Twelve monotonically rising samples used to evaluate theorems on a
concrete run (force 0..110 N, extension 0..2.75 mm). -/
def samp12 : List RawSample := (List.range 12).map (fun i => ⟨i, 10 * i, (i : ℚ) / 4⟩)

/-- The analyzer state after feeding `samp12` into a 50 mm / 40 mm² test. -/
def a12 : ResultsAnalyzer :=
  (feedAll rl0 (mkResultsAnalyzer 50 40) samp12).getD (mkResultsAnalyzer 50 40)

/-- A six-sample run that rises to 100 N and then drops to 40 N. -/
def sampBreak : List RawSample :=
  [⟨0, 0, 0⟩, ⟨1, 40, 1⟩, ⟨2, 80, 2⟩, ⟨3, 100, 3⟩, ⟨4, 40, 4⟩, ⟨5, 40, 5⟩]

/-- The analyzer state after feeding `sampBreak`. -/
def aBreak : ResultsAnalyzer :=
  (feedAll rl0 (mkResultsAnalyzer 50 40) sampBreak).getD (mkResultsAnalyzer 50 40)

/-- A three-sample run (fewer than five samples). -/
def sampStart : List RawSample := [⟨0, 0, 0⟩, ⟨1, 40, 1⟩, ⟨2, 80, 2⟩]

/-- The analyzer state after feeding `sampStart`. -/
def aStart : ResultsAnalyzer :=
  (feedAll rl0 (mkResultsAnalyzer 50 40) sampStart).getD (mkResultsAnalyzer 50 40)

/-- Two samples with negative (compressive) force and rising extension. -/
def sampNeg : List RawSample := [⟨0, -10, 0⟩, ⟨1, -10, 1⟩]

/-- Synthetic exactly linear specimen: strains spanning `[0, 0.05]` with
five samples inside the modulus window `[0.0005, 0.0025]`. -/
def strainLin : List ℚ :=
  [0, 5/10000, 10/10000, 15/10000, 20/10000, 25/10000, 1/100, 2/100, 3/100, 4/100, 5/100]

/-- Stresses of the synthetic linear specimen, `stress = 20000·strain`. -/
def stressLin : List ℚ := strainLin.map (fun x => 20000 * x)

/-- One nonnegative rising sample, then a second: prefix state. -/
def a7one : ResultsAnalyzer :=
  (feedAll rl0 (mkResultsAnalyzer 50 40) [⟨0, 10, 0⟩]).getD (mkResultsAnalyzer 50 40)

/-- State after the second nonnegative rising sample. -/
def a7two : ResultsAnalyzer :=
  (feedAll rl0 (mkResultsAnalyzer 50 40) [⟨0, 10, 0⟩, ⟨1, 20, 1⟩]).getD (mkResultsAnalyzer 50 40)

/-- `scanFirst p i k` returns `some j` exactly when `j` is the first index
in `[i, i+k)` satisfying `p`. -/
theorem scanFirst_eq_some_iff (p : Nat → Bool) (j : Nat) :
    ∀ (k i : Nat), (scanFirst p i k = some j ↔
      i ≤ j ∧ j < i + k ∧ p j = true ∧ ∀ t, i ≤ t → t < j → p t = false) := by
  intro k
  induction k with
  | zero =>
    intro i
    simp only [scanFirst]
    constructor
    · intro h; cases h
    · rintro ⟨h1, h2, _⟩; omega
  | succ k ih =>
    intro i
    simp only [scanFirst]
    by_cases hp : p i = true
    · rw [if_pos hp]
      constructor
      · intro h
        have hj : j = i := by cases h; rfl
        subst hj
        exact ⟨le_refl _, by omega, hp, fun t ht1 ht2 => absurd ht1 (by omega)⟩
      · rintro ⟨h1, _, _, h4⟩
        by_cases hij : j = i
        · subst hij; rfl
        · have hf : p i = false := h4 i (le_refl _) (by omega)
          rw [hp] at hf; cases hf
    · rw [if_neg hp]
      have hpf : p i = false := by
        cases hpv : p i
        · rfl
        · exact absurd hpv hp
      rw [ih (i + 1)]
      constructor
      · rintro ⟨h1, h2, h3, h4⟩
        refine ⟨by omega, by omega, h3, fun t ht1 ht2 => ?_⟩
        rcases Nat.eq_or_lt_of_le ht1 with he | hl
        · rw [← he]; exact hpf
        · exact h4 t (by omega) ht2
      · rintro ⟨h1, h2, h3, h4⟩
        have hij : i ≠ j := by
          intro he; rw [← he] at h3; rw [hpf] at h3; cases h3
        exact ⟨by omega, by omega, h3, fun t ht1 ht2 => h4 t (by omega) ht2⟩

/-- `scanFirst p i k` returns `none` exactly when no index in `[i, i+k)`
satisfies `p`. -/
theorem scanFirst_eq_none_iff (p : Nat → Bool) :
    ∀ (k i : Nat), (scanFirst p i k = none ↔ ∀ t, i ≤ t → t < i + k → p t = false) := by
  intro k
  induction k with
  | zero =>
    intro i
    simp only [scanFirst]
    constructor
    · intro _ t ht1 ht2; omega
    · intro _; trivial
  | succ k ih =>
    intro i
    simp only [scanFirst]
    by_cases hp : p i = true
    · rw [if_pos hp]
      constructor
      · intro h; cases h
      · intro h
        have hf : p i = false := h i (le_refl _) (by omega)
        rw [hp] at hf; cases hf
    · rw [if_neg hp]
      have hpf : p i = false := by
        cases hpv : p i
        · rfl
        · exact absurd hpv hp
      rw [ih (i + 1)]
      constructor
      · intro h t ht1 ht2
        rcases Nat.eq_or_lt_of_le ht1 with he | hl
        · rw [← he]; exact hpf
        · exact h t (by omega) (by omega)
      · intro h t ht1 ht2
        exact h t (by omega) (by omega)

/-- The first-max index returned by `npArgmax` is a valid index. -/
theorem npArgmax_lt_length : ∀ (l : List ℚ), l ≠ [] → npArgmax l < l.length := by
  intro l
  induction l with
  | nil => intro h; exact absurd rfl h
  | cons x xs ih =>
    intro _
    cases xs with
    | nil => simp [npArgmax]
    | cons y ys =>
      simp only [npArgmax]
      split
      · have h := ih (by simp)
        simp only [List.length_cons] at h ⊢
        omega
      · simp

/-- `getLastD` commutes with `map`. -/
theorem getLastD_map {α β : Type} (f : α → β) :
    ∀ (l : List α) (d : α), (l.map f).getLastD (f d) = f (l.getLastD d)
  | [], _ => rfl
  | a :: l, d => by
    simp only [List.map_cons, List.getLastD_cons]
    exact getLastD_map f l a

/-- Appending one sample to both channels extends the trapezoidal
integral by one trapezoid on the last interval. -/
theorem trapz_snoc : ∀ (ys xs : List ℚ) (b d : ℚ), ys ≠ [] → ys.length = xs.length →
    trapz (ys ++ [b]) (xs ++ [d]) =
      trapz ys xs + (ys.getLastD 0 + b) / 2 * (d - xs.getLastD 0) := by
  intro ys
  induction ys with
  | nil => intro xs b d h _; exact absurd rfl h
  | cons y ytl ih =>
    intro xs b d _ hlen
    cases xs with
    | nil => simp at hlen
    | cons x xtl =>
      cases ytl with
      | nil =>
        have hx : xtl = [] := by
          cases xtl with
          | nil => rfl
          | cons z zs => simp at hlen
        subst hx
        simp [trapz, List.getLastD]
      | cons y1 ytl1 =>
        cases xtl with
        | nil => simp at hlen
        | cons x1 xtl1 =>
          have hlen1 : (y1 :: ytl1).length = (x1 :: xtl1).length := by
            simpa using hlen
          have hne : (y1 :: ytl1) ≠ [] := by simp
          have hstep : trapz ((y :: y1 :: ytl1) ++ [b]) ((x :: x1 :: xtl1) ++ [d]) =
              (y + y1) / 2 * (x1 - x) + trapz ((y1 :: ytl1) ++ [b]) ((x1 :: xtl1) ++ [d]) := rfl
          have hstep2 : trapz (y :: y1 :: ytl1) (x :: x1 :: xtl1) =
              (y + y1) / 2 * (x1 - x) + trapz (y1 :: ytl1) (x1 :: xtl1) := rfl
          rw [hstep, ih (x1 :: xtl1) b d hne hlen1, hstep2]
          simp only [List.getLastD_cons]
          ring

/-- Expanding a sum of squared deviations about an arbitrary centre. -/
theorem sum_map_sq_dev (l : List ℚ) (c : ℚ) :
    (l.map (fun y => (y - c) ^ 2)).sum =
      (l.map (fun y => y ^ 2)).sum - 2 * c * l.sum + l.length * c ^ 2 := by
  induction l with
  | nil => simp
  | cons y l ih =>
    simp only [List.map_cons, List.sum_cons, List.length_cons, ih]
    push_cast
    ring

/-- On exactly linear pairs, `Σy = k·Σx`. -/
theorem sum_snd_of_linear {k : ℚ} :
    ∀ {l : List (ℚ × ℚ)}, (∀ p ∈ l, p.2 = k * p.1) →
      (l.map (fun p => p.2)).sum = k * (l.map (fun p => p.1)).sum := by
  intro l
  induction l with
  | nil => intro _; simp
  | cons q l ih =>
    intro h
    have hq := h q (by simp)
    have hrest := ih (fun p hp => h p (by simp [hp]))
    simp only [List.map_cons, List.sum_cons, hq, hrest]
    ring

/-- On exactly linear pairs, `Σxy = k·Σx²`. -/
theorem sum_xy_of_linear {k : ℚ} :
    ∀ {l : List (ℚ × ℚ)}, (∀ p ∈ l, p.2 = k * p.1) →
      (l.map (fun p => p.1 * p.2)).sum = k * (l.map (fun p => p.1 * p.1)).sum := by
  intro l
  induction l with
  | nil => intro _; simp
  | cons q l ih =>
    intro h
    have hq := h q (by simp)
    have hrest := ih (fun p hp => h p (by simp [hp]))
    simp only [List.map_cons, List.sum_cons, hq, hrest]
    ring

/-- On exactly linear pairs, `Σy² = k²·Σx²`. -/
theorem sum_sq_snd_of_linear {k : ℚ} :
    ∀ {l : List (ℚ × ℚ)}, (∀ p ∈ l, p.2 = k * p.1) →
      (l.map (fun p => p.2 ^ 2)).sum = k ^ 2 * (l.map (fun p => p.1 * p.1)).sum := by
  intro l
  induction l with
  | nil => intro _; simp
  | cons q l ih =>
    intro h
    have hq := h q (by simp)
    have hrest := ih (fun p hp => h p (by simp [hp]))
    simp only [List.map_cons, List.sum_cons, hq, hrest]
    ring

/-- A nonempty list's `getLastD` is a member. -/
theorem getLastD_mem {α : Type} : ∀ (l : List α) (d : α), l ≠ [] → l.getLastD d ∈ l
  | [a], _, _ => by simp [List.getLastD]
  | a :: b :: l, d, _ => by
    rw [List.getLastD_cons]
    exact List.mem_cons_of_mem _ (getLastD_mem (b :: l) a (by simp))

/-- A nonempty list's `getLastD` does not depend on the default. -/
theorem getLastD_irrel {α : Type} :
    ∀ (l : List α) (d1 d2 : α), l ≠ [] → l.getLastD d1 = l.getLastD d2
  | [a], _, _, _ => rfl
  | a :: b :: l, d1, d2, _ => by
    simp only [List.getLastD_cons]

/-- `_update_live_calculations` only mutates `self.live`: every stored
array and configuration field is unchanged. -/
theorem updateLive_arrays (rlog : ℚ → ℚ) (a : ResultsAnalyzer) :
    (updateLiveCalculations rlog a).data = a.data ∧
    (updateLiveCalculations rlog a).force_data = a.force_data ∧
    (updateLiveCalculations rlog a).extension_data = a.extension_data := by
  unfold updateLiveCalculations
  split
  · exact ⟨rfl, rfl, rfl⟩
  · exact ⟨rfl, rfl, rfl⟩

/-- With at least two buffered samples, `_update_live_calculations` adds
exactly the trapezoidal increment of the last interval to the energy. -/
theorem updateLive_energy (rlog : ℚ → ℚ) (a : ResultsAnalyzer)
    (h2 : 2 ≤ a.data.length) :
    (updateLiveCalculations rlog a).live.energy_absorbed =
      a.live.energy_absorbed +
        ((a.data.getLastD default).force + (a.data.dropLast.getLastD default).force) / 2 *
          ((a.data.getLastD default).extension -
            (a.data.dropLast.getLastD default).extension) / 1000 := by
  unfold updateLiveCalculations
  rw [if_neg (by omega)]
  dsimp only
  split_ifs <;> ring

/-- A fresh analyzer satisfies the coherence invariant. -/
theorem coherent_init (g A : ℚ) : Coherent (mkResultsAnalyzer g A) := by
  refine ⟨rfl, rfl, ?_⟩
  show (0 : ℚ) = trapz [] [] / 1000
  norm_num [trapz]

/-- One successful `add_data_point` preserves coherence and extends the
force/extension channels by the new sample. -/
theorem addDataPoint_step {rlog : ℚ → ℚ} {a a2 : ResultsAnalyzer} {t f e : ℚ}
    (hc : Coherent a)
    (h : addDataPoint rlog a t f e none = some a2) :
    Coherent a2 ∧ a2.force_data = a.force_data ++ [f] ∧
      a2.extension_data = a.extension_data ++ [e] ∧
      a2.data.length = a.data.length + 1 := by
  obtain ⟨hcf, hce, hcen⟩ := hc
  by_cases hcnd : a.cross_section_area = 0 ∨ a.gauge_length = 0
  · simp [addDataPoint, hcnd] at h
  · rw [show addDataPoint rlog a t f e none =
        some (updateLiveCalculations rlog { a with
          data := a.data ++ [⟨t, f, e, e, f / a.cross_section_area, e / a.gauge_length⟩],
          time_data := a.time_data ++ [t],
          force_data := a.force_data ++ [f],
          extension_data := a.extension_data ++ [e],
          displacement_data := a.displacement_data ++ [e],
          stress_data := a.stress_data ++ [f / a.cross_section_area],
          strain_data := a.strain_data ++ [e / a.gauge_length] }) from by
      simp [addDataPoint, hcnd]] at h
    injection h with h2
    subst h2
    set pt : TestDataPoint := ⟨t, f, e, e, f / a.cross_section_area, e / a.gauge_length⟩
    set aApp : ResultsAnalyzer := { a with
      data := a.data ++ [pt],
      time_data := a.time_data ++ [t],
      force_data := a.force_data ++ [f],
      extension_data := a.extension_data ++ [e],
      displacement_data := a.displacement_data ++ [e],
      stress_data := a.stress_data ++ [f / a.cross_section_area],
      strain_data := a.strain_data ++ [e / a.gauge_length] }
    obtain ⟨hud, huf, hue⟩ := updateLive_arrays rlog aApp
    refine ⟨⟨?_, ?_, ?_⟩, ?_, ?_, ?_⟩
    · rw [huf, hud]
      show a.force_data ++ [f] = (a.data ++ [pt]).map (fun p => p.force)
      rw [List.map_append, hcf]
      rfl
    · rw [hue, hud]
      show a.extension_data ++ [e] = (a.data ++ [pt]).map (fun p => p.extension)
      rw [List.map_append, hce]
      rfl
    · rw [huf, hue]
      by_cases hnil : a.data = []
      · have hf0 : a.force_data = [] := by rw [hcf, hnil]; rfl
        have he0 : a.extension_data = [] := by rw [hce, hnil]; rfl
        have hone : aApp.data.length = 1 := by
          show (a.data ++ [pt]).length = 1
          rw [hnil]; rfl
        have hid : updateLiveCalculations rlog aApp = aApp := by
          unfold updateLiveCalculations
          rw [if_pos (by omega)]
        rw [hid]
        show a.live.energy_absorbed = trapz (a.force_data ++ [f]) (a.extension_data ++ [e]) / 1000
        rw [hf0, he0, hcen, hf0, he0]
        norm_num [trapz]
      · have hlen2 : 2 ≤ aApp.data.length := by
          show 2 ≤ (a.data ++ [pt]).length
          rw [List.length_append]
          have : a.data.length ≠ 0 := fun hz => hnil (List.length_eq_zero.mp hz)
          simp only [List.length_cons, List.length_nil]
          omega
        rw [updateLive_energy rlog aApp hlen2]
        have hlast : aApp.data.getLastD default = pt := by
          show (a.data ++ [pt]).getLastD default = pt
          rw [List.getLastD_concat]
        have hprev : aApp.data.dropLast.getLastD default = a.data.getLastD default := by
          show (a.data ++ [pt]).dropLast.getLastD default = a.data.getLastD default
          rw [List.dropLast_concat]
        have hflast : a.force_data.getLastD 0 = (a.data.getLastD default).force := by
          rw [hcf]
          have hz : (0 : ℚ) = (default : TestDataPoint).force := rfl
          rw [hz, getLastD_map]
        have helast : a.extension_data.getLastD 0 = (a.data.getLastD default).extension := by
          rw [hce]
          have hz : (0 : ℚ) = (default : TestDataPoint).extension := rfl
          rw [hz, getLastD_map]
        have hfne : a.force_data ≠ [] := by
          rw [hcf]
          simpa using hnil
        have hflen : a.force_data.length = a.extension_data.length := by
          rw [hcf, hce, List.length_map, List.length_map]
        rw [trapz_snoc a.force_data a.extension_data f e hfne hflen]
        have henA : aApp.live.energy_absorbed = a.live.energy_absorbed := rfl
        rw [hlast, hprev, henA, hcen, hflast, helast]
        show trapz a.force_data a.extension_data / 1000 +
            (pt.force + (a.data.getLastD default).force) / 2 *
              (pt.extension - (a.data.getLastD default).extension) / 1000 =
          (trapz a.force_data a.extension_data +
              ((a.data.getLastD default).force + pt.force) / 2 *
                (pt.extension - (a.data.getLastD default).extension)) / 1000
        ring
    · rw [huf]
    · rw [hue]
    · rw [hud]
      show (a.data ++ [pt]).length = a.data.length + 1
      rw [List.length_append]
      rfl

/-- Feeding samples through `add_data_point` preserves coherence and the
channels accumulate exactly the fed forces/extensions. -/
theorem feedAll_spec (rlog : ℚ → ℚ) :
    ∀ (samples : List RawSample) (a a2 : ResultsAnalyzer),
      Coherent a → feedAll rlog a samples = some a2 →
      Coherent a2 ∧ a2.force_data = a.force_data ++ samples.map (fun s => s.force) ∧
        a2.extension_data = a.extension_data ++ samples.map (fun s => s.extension) ∧
        a2.data.length = a.data.length + samples.length := by
  intro samples
  induction samples with
  | nil =>
    intro a a2 hc h
    have ha : a = a2 := by
      simpa [feedAll] using h
    subst ha
    simp [hc]
  | cons s rest ih =>
    intro a a2 hc h
    unfold feedAll at h
    split at h
    · cases h
    · rename_i a1 hstep
      obtain ⟨hc1, hf1, he1, hl1⟩ := addDataPoint_step hc hstep
      obtain ⟨hc2, hf2, he2, hl2⟩ := ih a1 a2 hc1 h
      refine ⟨hc2, ?_, ?_, ?_⟩
      · rw [hf2, hf1, List.map_cons, List.append_assoc]
        rfl
      · rw [he2, he1, List.map_cons, List.append_assoc]
        rfl
      · rw [hl2, hl1, List.length_cons]
        omega

/-- `_validate_test` only rewrites the validity flag and notes: the
energy-to-break field passes through unchanged. -/
theorem validateTest_energy (fmt3 : ℚ → String) (r : MechanicalProperties) :
    (validateTest fmt3 r).energy_to_break = r.energy_to_break := by
  unfold validateTest
  dsimp only
  split_ifs <;> rfl

/-- For a nonempty list, `getLast?` returns its `getLastD` value. -/
theorem getLast?_eq_getLastD {α : Type} :
    ∀ (l : List α) (d : α), l ≠ [] → l.getLast? = some (l.getLastD d)
  | [_], _, _ => rfl
  | a :: b :: l, _, _ => by
    rw [List.getLastD_cons, List.getLast?_cons_cons]
    exact getLast?_eq_getLastD (b :: l) a (by simp)

/-- C1: feeding any sample array one sample at a time through the live
incremental trapezoidal energy update yields exactly the batch
trapezoidal integral of force over extension (both converting mm to m),
and hence exactly the `energy_to_break` reported by `calculate_results`
on the identical array (when batch analysis runs, i.e. ≥ 10 samples).
Exact rational equality subsumes the spec's 1e-6 relative tolerance. -/
theorem c1_live_batch_energy_agree (rlog : ℚ → ℚ) (fmt3 : ℚ → String) (g A : ℚ)
    (samples : List RawSample) (a2 : ResultsAnalyzer)
    (h : feedAll rlog (mkResultsAnalyzer g A) samples = some a2) :
    a2.live.energy_absorbed =
      trapz (samples.map (fun s => s.force)) (samples.map (fun s => s.extension)) / 1000 ∧
    (10 ≤ samples.length →
      (calculateResults rlog fmt3 a2).energy_to_break = a2.live.energy_absorbed) := by
  obtain ⟨⟨hcf, hce, hcen⟩, hf, he, hl⟩ :=
    feedAll_spec rlog samples (mkResultsAnalyzer g A) a2 (coherent_init g A) h
  have hf0 : a2.force_data = samples.map (fun s => s.force) := by
    simpa [mkResultsAnalyzer] using hf
  have he0 : a2.extension_data = samples.map (fun s => s.extension) := by
    simpa [mkResultsAnalyzer] using he
  have hl0 : a2.data.length = samples.length := by
    simpa [mkResultsAnalyzer] using hl
  refine ⟨by rw [hcen, hf0, he0], fun h10 => ?_⟩
  unfold calculateResults
  rw [if_neg (by omega)]
  dsimp only
  rw [validateTest_energy]
  show trapz a2.force_data a2.extension_data / 1000 = a2.live.energy_absorbed
  rw [hcen]

/-- C2: with fewer than 10 samples, batch analysis returns the invalid,
zeroed result with the insufficient-data note.  The translated
`calculate_results` is a total function — the early-return path raises
nothing. -/
theorem c2_insufficient_data (rlog : ℚ → ℚ) (fmt3 : ℚ → String) (a : ResultsAnalyzer)
    (h : a.data.length < 10) :
    (calculateResults rlog fmt3 a).is_valid_test = false ∧
    (calculateResults rlog fmt3 a).validity_notes = "Insufficient data points" ∧
    (calculateResults rlog fmt3 a).ultimate_tensile_strength = 0 ∧
    (calculateResults rlog fmt3 a).yield_strength_offset = 0 ∧
    (calculateResults rlog fmt3 a).yield_strength_upper = 0 ∧
    (calculateResults rlog fmt3 a).yield_strength_lower = 0 ∧
    (calculateResults rlog fmt3 a).break_stress = 0 ∧
    (calculateResults rlog fmt3 a).youngs_modulus = 0 ∧
    (calculateResults rlog fmt3 a).modulus_chord = 0 ∧
    (calculateResults rlog fmt3 a).modulus_secant = 0 ∧
    (calculateResults rlog fmt3 a).strain_at_yield = 0 ∧
    (calculateResults rlog fmt3 a).strain_at_uts = 0 ∧
    (calculateResults rlog fmt3 a).strain_at_break = 0 ∧
    (calculateResults rlog fmt3 a).elongation_at_break = 0 ∧
    (calculateResults rlog fmt3 a).uniform_elongation = 0 ∧
    (calculateResults rlog fmt3 a).max_force = 0 ∧
    (calculateResults rlog fmt3 a).force_at_yield = 0 ∧
    (calculateResults rlog fmt3 a).force_at_break = 0 ∧
    (calculateResults rlog fmt3 a).extension_at_yield = 0 ∧
    (calculateResults rlog fmt3 a).extension_at_uts = 0 ∧
    (calculateResults rlog fmt3 a).extension_at_break = 0 ∧
    (calculateResults rlog fmt3 a).energy_to_yield = 0 ∧
    (calculateResults rlog fmt3 a).energy_to_uts = 0 ∧
    (calculateResults rlog fmt3 a).energy_to_break = 0 ∧
    (calculateResults rlog fmt3 a).true_stress_at_uts = 0 ∧
    (calculateResults rlog fmt3 a).true_strain_at_uts = 0 ∧
    (calculateResults rlog fmt3 a).modulus_r_squared = 0 ∧
    (calculateResults rlog fmt3 a).failure_type = FailureType.UNKNOWN ∧
    (calculateResults rlog fmt3 a).break_location = BreakLocation.UNKNOWN := by
  unfold calculateResults
  rw [if_pos h]
  exact ⟨rfl, rfl, rfl, rfl, rfl, rfl, rfl, rfl, rfl, rfl, rfl, rfl, rfl, rfl, rfl,
    rfl, rfl, rfl, rfl, rfl, rfl, rfl, rfl, rfl, rfl, rfl, rfl, rfl, rfl⟩

/-- Witness for C2 at an empty ten-sample-short analyzer. -/
theorem c2_insufficient_data_witness :
    (calculateResults rl0 fm0 (mkResultsAnalyzer 50 40)).is_valid_test = false ∧
    (calculateResults rl0 fm0 (mkResultsAnalyzer 50 40)).validity_notes =
      "Insufficient data points" := by
  have h := c2_insufficient_data rl0 fm0 (mkResultsAnalyzer 50 40) (by decide)
  exact ⟨h.1, h.2.1⟩

/-- C6 (code behaviour at the claimed failing input): the constructor
accepts non-positive geometry without any rejection or NaN marking, and
the bad geometry is only discovered mid-test — `add_data_point` raises
`ZeroDivisionError` (modelled `none`) for zero area, and silently
computes a negative stress for negative area. -/
theorem c6_geometry_not_rejected :
    (mkResultsAnalyzer 50 0).cross_section_area = 0 ∧
    (mkResultsAnalyzer 50 (-40)).cross_section_area = -40 ∧
    addDataPoint rl0 (mkResultsAnalyzer 50 0) 0 100 1 none = none ∧
    (addDataPoint rl0 (mkResultsAnalyzer 50 (-40)) 0 100 1 none).map
      (fun b => b.stress_data) = some [-(5/2)] := by
  norm_num [mkResultsAnalyzer, addDataPoint, updateLiveCalculations, determineTestStage, rl0]

/-- Counterexample to C7 as stated: two samples with non-decreasing
extensions (0 mm then 1 mm) but negative force make the cumulative
energy decrease from 0 to −1/100 J on the second update. -/
theorem c7_counterexample :
    List.Chain' (fun u v : RawSample => u.extension ≤ v.extension) sampNeg ∧
    (feedAll rl0 (mkResultsAnalyzer 50 40) [⟨0, -10, 0⟩]).map
      (fun b => b.live.energy_absorbed) = some 0 ∧
    (feedAll rl0 (mkResultsAnalyzer 50 40) sampNeg).map
      (fun b => b.live.energy_absorbed) = some (-(1/100)) := by
  refine ⟨?_, ?_, ?_⟩
  · norm_num [sampNeg, List.chain'_cons, List.chain'_singleton]
  · norm_num [feedAll, mkResultsAnalyzer, addDataPoint, updateLiveCalculations,
      determineTestStage, rl0]
  · norm_num [sampNeg, feedAll, mkResultsAnalyzer, addDataPoint, updateLiveCalculations,
      determineTestStage, rl0]

/-- C10: `calculate_results` leaves every stored field of the analyzer
unchanged — the seven data arrays, the geometry, the configuration
constants and the live state — and calling it twice in succession on the
same frozen data returns equal `MechanicalProperties` values. -/
theorem c10_calculate_results_pure (rlog : ℚ → ℚ) (fmt3 : ℚ → String)
    (a : ResultsAnalyzer) :
    (calculateResultsS rlog fmt3 a).2.data = a.data ∧
    (calculateResultsS rlog fmt3 a).2.time_data = a.time_data ∧
    (calculateResultsS rlog fmt3 a).2.force_data = a.force_data ∧
    (calculateResultsS rlog fmt3 a).2.extension_data = a.extension_data ∧
    (calculateResultsS rlog fmt3 a).2.displacement_data = a.displacement_data ∧
    (calculateResultsS rlog fmt3 a).2.stress_data = a.stress_data ∧
    (calculateResultsS rlog fmt3 a).2.strain_data = a.strain_data ∧
    (calculateResultsS rlog fmt3 a).2.gauge_length = a.gauge_length ∧
    (calculateResultsS rlog fmt3 a).2.cross_section_area = a.cross_section_area ∧
    (calculateResultsS rlog fmt3 a).2.yield_offset = a.yield_offset ∧
    (calculateResultsS rlog fmt3 a).2.modulus_strain_start = a.modulus_strain_start ∧
    (calculateResultsS rlog fmt3 a).2.modulus_strain_end = a.modulus_strain_end ∧
    (calculateResultsS rlog fmt3 a).2.break_detection_drop = a.break_detection_drop ∧
    (calculateResultsS rlog fmt3 a).2.live = a.live ∧
    (calculateResultsS rlog fmt3 ((calculateResultsS rlog fmt3 a).2)).1 =
      (calculateResultsS rlog fmt3 a).1 :=
  ⟨rfl, rfl, rfl, rfl, rfl, rfl, rfl, rfl, rfl, rfl, rfl, rfl, rfl, rfl, rfl⟩

/-- C3: the break-point index is the first index at or after
`argmax(force)` whose force is strictly below `0.5 × max(force)`, or the
last index if no such sample exists; consequently it is always `≥`
`argmax(force)`; and in the trace rising to 100 N then dropping to 40 N
and staying flat, it is exactly the first post-peak sample below 50 N. -/
theorem c3_break_point_spec (force : List ℚ) (h : force ≠ []) :
    npArgmax force ≤ findBreakPoint (1/2) force ∧
    findBreakPoint (1/2) force < force.length ∧
    ((force.getD (findBreakPoint (1/2) force) 0 < 1/2 * npMax force ∧
        ∀ j, npArgmax force ≤ j → j < findBreakPoint (1/2) force →
          ¬(force.getD j 0 < 1/2 * npMax force)) ∨
      (findBreakPoint (1/2) force = force.length - 1 ∧
        ∀ j, npArgmax force ≤ j → j < force.length →
          ¬(force.getD j 0 < 1/2 * npMax force))) ∧
    findBreakPoint (1/2) [0, 50, 100, 40, 40, 40] = 3 := by
  have hm := npArgmax_lt_length force h
  have hlpos : 0 < force.length := List.length_pos.mpr h
  have hscen : findBreakPoint (1/2) ([0, 50, 100, 40, 40, 40] : List ℚ) = 3 := by
    norm_num [findBreakPoint, npMax, npArgmax, scanFirst, List.getD]
  have hconc : findBreakPoint (1/2) force =
      match scanFirst (fun i => decide (force.getD i 0 < 1/2 * npMax force))
        (npArgmax force) (force.length - npArgmax force) with
      | some i => i
      | none => force.length - 1 := rfl
  cases hscan : scanFirst (fun i => decide (force.getD i 0 < 1/2 * npMax force))
      (npArgmax force) (force.length - npArgmax force) with
  | some i =>
    obtain ⟨h1, h2, h3, h4⟩ := (scanFirst_eq_some_iff _ i _ _).mp hscan
    have hi : force.getD i 0 < 1/2 * npMax force := of_decide_eq_true h3
    have hr : findBreakPoint (1/2) force = i := by rw [hconc, hscan]
    refine ⟨by omega, by omega, Or.inl ⟨by rw [hr]; exact hi, ?_⟩, hscen⟩
    intro j hj1 hj2 hjlt
    rw [hr] at hj2
    have := h4 j hj1 hj2
    rw [decide_eq_false_iff_not] at this
    exact this hjlt
  | none =>
    have hall := (scanFirst_eq_none_iff _ _ _).mp hscan
    have hr : findBreakPoint (1/2) force = force.length - 1 := by rw [hconc, hscan]
    refine ⟨by omega, by omega, Or.inr ⟨hr, ?_⟩, hscen⟩
    intro j hj1 hj2 hjlt
    have := hall j hj1 (by omega)
    rw [decide_eq_false_iff_not] at this
    exact this hjlt

/-- Witness for C3 on the scenario trace. -/
theorem c3_break_point_spec_witness :
    npArgmax ([0, 50, 100, 40, 40, 40] : List ℚ) ≤
      findBreakPoint (1/2) ([0, 50, 100, 40, 40, 40] : List ℚ) :=
  (c3_break_point_spec [0, 50, 100, 40, 40, 40] (by simp)).1

/-- C4: the 0.2 %-offset yield computation returns all zeros when
`E ≤ 0`; returns all zeros when the difference to the offset line never
transitions from positive to `≤ 0`; and at the first such transition it
returns the linearly interpolated crossing stress, strain, force and
extension. -/
theorem c4_yield_offset_crossing (stress strain force extension : List ℚ) (E : ℚ) :
    (E ≤ 0 → calculateYieldStrength (2/1000) stress strain force extension E = (0, 0, 0, 0)) ∧
    (0 < E →
      (∀ i, 1 ≤ i → i < stress.length →
        ¬(offsetDiff (2/1000) E stress strain (i - 1) > 0 ∧
          offsetDiff (2/1000) E stress strain i ≤ 0)) →
      calculateYieldStrength (2/1000) stress strain force extension E = (0, 0, 0, 0)) ∧
    (0 < E → ∀ i, 1 ≤ i → i < stress.length →
      offsetDiff (2/1000) E stress strain (i - 1) > 0 →
      offsetDiff (2/1000) E stress strain i ≤ 0 →
      (∀ j, 1 ≤ j → j < i →
        ¬(offsetDiff (2/1000) E stress strain (j - 1) > 0 ∧
          offsetDiff (2/1000) E stress strain j ≤ 0)) →
      calculateYieldStrength (2/1000) stress strain force extension E =
        (stress.getD (i - 1) 0 +
            offsetDiff (2/1000) E stress strain (i - 1) /
              (offsetDiff (2/1000) E stress strain (i - 1) -
                offsetDiff (2/1000) E stress strain i) *
              (stress.getD i 0 - stress.getD (i - 1) 0),
         strain.getD (i - 1) 0 +
            offsetDiff (2/1000) E stress strain (i - 1) /
              (offsetDiff (2/1000) E stress strain (i - 1) -
                offsetDiff (2/1000) E stress strain i) *
              (strain.getD i 0 - strain.getD (i - 1) 0),
         force.getD (i - 1) 0 +
            offsetDiff (2/1000) E stress strain (i - 1) /
              (offsetDiff (2/1000) E stress strain (i - 1) -
                offsetDiff (2/1000) E stress strain i) *
              (force.getD i 0 - force.getD (i - 1) 0),
         extension.getD (i - 1) 0 +
            offsetDiff (2/1000) E stress strain (i - 1) /
              (offsetDiff (2/1000) E stress strain (i - 1) -
                offsetDiff (2/1000) E stress strain i) *
              (extension.getD i 0 - extension.getD (i - 1) 0))) := by
  refine ⟨fun hE => ?_, fun hE hno => ?_, fun hE i hi1 hi2 hpos hle hmin => ?_⟩
  · unfold calculateYieldStrength
    rw [if_pos hE]
  · unfold calculateYieldStrength
    rw [if_neg (not_le.mpr hE)]
    have hs : scanFirst
        (fun i => decide (offsetDiff (2/1000) E stress strain (i - 1) > 0 ∧
          offsetDiff (2/1000) E stress strain i ≤ 0)) 1 (stress.length - 1) = none := by
      rw [scanFirst_eq_none_iff]
      intro t ht1 ht2
      rw [decide_eq_false_iff_not]
      exact hno t ht1 (by omega)
    dsimp only
    rw [hs]
  · unfold calculateYieldStrength
    rw [if_neg (not_le.mpr hE)]
    have hs : scanFirst
        (fun i => decide (offsetDiff (2/1000) E stress strain (i - 1) > 0 ∧
          offsetDiff (2/1000) E stress strain i ≤ 0)) 1 (stress.length - 1) = some i := by
      rw [scanFirst_eq_some_iff]
      refine ⟨hi1, by omega, by rw [decide_eq_true_eq]; exact ⟨hpos, hle⟩, ?_⟩
      intro t ht1 ht2
      rw [decide_eq_false_iff_not]
      exact hmin t ht1 ht2
    dsimp only
    rw [hs]

/-- Witness for C4 at a concrete crossing: the curve sits above the
offset line at index 0 and at or below it at index 1. -/
theorem c4_yield_offset_crossing_witness :
    calculateYieldStrength (2/1000) [1, 0] [0, 1] [10, 20] [0, 5] 1 =
      (499/1000, 501/1000, 1501/100, 501/200) := by
  have h := (c4_yield_offset_crossing [1, 0] [0, 1] [10, 20] [0, 5] 1).2.2
    (by norm_num) 1 (by norm_num) (by norm_num)
    (by norm_num [offsetDiff, List.getD])
    (by norm_num [offsetDiff, List.getD])
    (by intro j hj1 hj2; omega)
  rw [h]
  norm_num [offsetDiff, List.getD]

/-- C8: once at least 5 samples exist, a current force below half the
running maximum (with that maximum above 10) always classifies the stage
as "Break Detected" — the break check precedes the elastic, yielding,
strain-hardening and post-yield checks; with fewer than 5 samples the
stage is always "Starting". -/
theorem c8_stage_precedence (a : ResultsAnalyzer) :
    (a.data.length < 5 → determineTestStage a = "Starting") ∧
    (5 ≤ a.data.length →
      (a.data.getLastD default).force < 1/2 * npMax a.force_data →
      npMax a.force_data > 10 →
      determineTestStage a = "Break Detected" ∧
      determineTestStage a ≠ "Elastic Region" ∧
      determineTestStage a ≠ "Yielding" ∧
      determineTestStage a ≠ "Strain Hardening" ∧
      determineTestStage a ≠ "Post-Yield") := by
  constructor
  · intro h
    unfold determineTestStage
    rw [if_pos h]
  · intro h5 hdrop hmax
    have hbd : determineTestStage a = "Break Detected" := by
      unfold determineTestStage
      rw [if_neg (by omega)]
      dsimp only
      rw [if_pos ⟨hdrop, hmax⟩]
    refine ⟨hbd, ?_, ?_, ?_, ?_⟩ <;> rw [hbd] <;> simp

/-- Witness for C8: a three-sample run is "Starting", and the
rise-to-100-N-then-drop-to-40-N run is "Break Detected". -/
theorem c8_stage_precedence_witness :
    determineTestStage aStart = "Starting" ∧
    determineTestStage aBreak = "Break Detected" := by
  constructor
  · exact (c8_stage_precedence aStart).1 (by
      norm_num [aStart, sampStart, feedAll, addDataPoint, updateLiveCalculations,
        determineTestStage, mkResultsAnalyzer, rl0])
  · exact ((c8_stage_precedence aBreak).2
      (by norm_num [aBreak, sampBreak, feedAll, addDataPoint, updateLiveCalculations,
            determineTestStage, mkResultsAnalyzer, rl0])
      (by norm_num [aBreak, sampBreak, feedAll, addDataPoint, updateLiveCalculations,
            determineTestStage, mkResultsAnalyzer, rl0, npMax])
      (by norm_num [aBreak, sampBreak, feedAll, addDataPoint, updateLiveCalculations,
            determineTestStage, mkResultsAnalyzer, rl0, npMax])).1

/-- C9: the failure classifier applies, in order: Brittle if
`strain_at_break < 0.02`; else Necking if
`strain_at_break − strain_at_UTS > 0.05`; else Ductile if
`strain_at_break > 0.05`; else Unknown. -/
theorem c9_failure_order (stress strain : List ℚ) (u b : Nat) :
    (strain.getD b 0 < 1/50 →
      determineFailureType stress strain u b = FailureType.BRITTLE) ∧
    (¬ strain.getD b 0 < 1/50 → strain.getD b 0 - strain.getD u 0 > 1/20 →
      determineFailureType stress strain u b = FailureType.NECKING) ∧
    (¬ strain.getD b 0 < 1/50 → ¬ strain.getD b 0 - strain.getD u 0 > 1/20 →
      strain.getD b 0 > 1/20 →
      determineFailureType stress strain u b = FailureType.DUCTILE) ∧
    (¬ strain.getD b 0 < 1/50 → ¬ strain.getD b 0 - strain.getD u 0 > 1/20 →
      ¬ strain.getD b 0 > 1/20 →
      determineFailureType stress strain u b = FailureType.UNKNOWN) := by
  refine ⟨fun h1 => ?_, fun h1 h2 => ?_, fun h1 h2 h3 => ?_, fun h1 h2 h3 => ?_⟩ <;>
    unfold determineFailureType <;> dsimp only
  · rw [if_pos h1]
  · rw [if_neg h1, if_pos h2]
  · rw [if_neg h1, if_neg h2, if_pos h3]
  · rw [if_neg h1, if_neg h2, if_neg h3]

/-- Witness for C9: one concrete input per branch of the rule. -/
theorem c9_failure_order_witness :
    determineFailureType [] [0, 1/100] 0 1 = FailureType.BRITTLE ∧
    determineFailureType [] [0, 1/10] 0 1 = FailureType.NECKING ∧
    determineFailureType [] [3/100, 6/100] 0 1 = FailureType.DUCTILE ∧
    determineFailureType [] [0, 3/100] 0 1 = FailureType.UNKNOWN := by
  refine ⟨(c9_failure_order [] [0, 1/100] 0 1).1 ?_,
    (c9_failure_order [] [0, 1/10] 0 1).2.1 ?_ ?_,
    (c9_failure_order [] [3/100, 6/100] 0 1).2.2.1 ?_ ?_ ?_,
    (c9_failure_order [] [0, 3/100] 0 1).2.2.2 ?_ ?_ ?_⟩ <;>
      norm_num [List.getD]

/-- `_update_live_calculations` does not touch the stored geometry. -/
theorem updateLive_geometry (rlog : ℚ → ℚ) (a : ResultsAnalyzer) :
    (updateLiveCalculations rlog a).cross_section_area = a.cross_section_area ∧
    (updateLiveCalculations rlog a).gauge_length = a.gauge_length := by
  unfold updateLiveCalculations
  split
  · exact ⟨rfl, rfl⟩
  · exact ⟨rfl, rfl⟩

/-- With nonzero geometry, `add_data_point` cannot raise. -/
theorem addDataPoint_not_none {rlog : ℚ → ℚ} {a : ResultsAnalyzer} {t f e : ℚ}
    (hA : a.cross_section_area ≠ 0) (hG : a.gauge_length ≠ 0) :
    addDataPoint rlog a t f e none ≠ none := by
  simp [addDataPoint, not_or.mpr ⟨hA, hG⟩]

/-- `add_data_point` does not touch the stored geometry. -/
theorem addDataPoint_geometry {rlog : ℚ → ℚ} {a b : ResultsAnalyzer} {t f e : ℚ}
    (h : addDataPoint rlog a t f e none = some b) :
    b.cross_section_area = a.cross_section_area ∧ b.gauge_length = a.gauge_length := by
  by_cases hcnd : a.cross_section_area = 0 ∨ a.gauge_length = 0
  · simp [addDataPoint, hcnd] at h
  · rw [show addDataPoint rlog a t f e none =
        some (updateLiveCalculations rlog { a with
          data := a.data ++ [⟨t, f, e, e, f / a.cross_section_area, e / a.gauge_length⟩],
          time_data := a.time_data ++ [t],
          force_data := a.force_data ++ [f],
          extension_data := a.extension_data ++ [e],
          displacement_data := a.displacement_data ++ [e],
          stress_data := a.stress_data ++ [f / a.cross_section_area],
          strain_data := a.strain_data ++ [e / a.gauge_length] }) from by
      simp [addDataPoint, hcnd]] at h
    injection h with h2
    subst h2
    exact ⟨(updateLive_geometry rlog _).1, (updateLive_geometry rlog _).2⟩

/-- With nonzero geometry, feeding any sample list succeeds. -/
theorem feedAll_isSome (rlog : ℚ → ℚ) :
    ∀ (samples : List RawSample) (a : ResultsAnalyzer),
      a.cross_section_area ≠ 0 → a.gauge_length ≠ 0 →
      ∃ b, feedAll rlog a samples = some b := by
  intro samples
  induction samples with
  | nil => exact fun a _ _ => ⟨a, rfl⟩
  | cons s rest ih =>
    intro a hA hG
    cases hstep : addDataPoint rlog a s.time s.force s.extension none with
    | none => exact absurd hstep (addDataPoint_not_none hA hG)
    | some a1 =>
      obtain ⟨hA1, hG1⟩ := addDataPoint_geometry hstep
      obtain ⟨b, hb⟩ := ih a1 (by rw [hA1]; exact hA) (by rw [hG1]; exact hG)
      refine ⟨b, ?_⟩
      unfold feedAll
      rw [hstep]
      exact hb

/-- Closed form of a successful feed from a fresh analyzer. -/
theorem feedAll_mk_eq (rlog : ℚ → ℚ) (g A : ℚ) (samples : List RawSample)
    (hA : A ≠ 0) (hG : g ≠ 0) :
    feedAll rlog (mkResultsAnalyzer g A) samples =
      some ((feedAll rlog (mkResultsAnalyzer g A) samples).getD (mkResultsAnalyzer g A)) := by
  obtain ⟨b, hb⟩ := feedAll_isSome rlog samples (mkResultsAnalyzer g A) hA hG
  rw [hb]
  rfl

/-- Witness for C1 on twelve concrete rising samples: the live
accumulator equals the batch integral and the reported energy-to-break. -/
theorem c1_live_batch_energy_agree_witness :
    a12.live.energy_absorbed =
      trapz (samp12.map (fun s => s.force)) (samp12.map (fun s => s.extension)) / 1000 ∧
    (calculateResults rl0 fm0 a12).energy_to_break = a12.live.energy_absorbed := by
  have h := c1_live_batch_energy_agree rl0 fm0 50 40 samp12 a12
    (feedAll_mk_eq rl0 50 40 samp12 (by norm_num) (by norm_num))
  have hlen : samp12.length = 12 := rfl
  exact ⟨h.1, h.2 (by rw [hlen]; norm_num)⟩

/-- The degree-one least-squares fit on exactly linear data of positive
slope recovers the slope exactly and has `R² = 1` (stated on the very
expression computed by `_calculate_youngs_modulus` past its guards). -/
theorem ols_exact_fit (sel : List (ℚ × ℚ)) (k : ℚ) (hk : 0 < k)
    (hsel : ∀ p ∈ sel, p.2 = k * p.1)
    (hne : sel ≠ [])
    (hden : 0 < (sel.length : ℚ) * (sel.map (fun p => p.1 * p.1)).sum -
      (sel.map (fun p => p.1)).sum * (sel.map (fun p => p.1)).sum) :
    (let n : ℚ := sel.length
     let sx := (sel.map (fun p => p.1)).sum
     let sy := (sel.map (fun p => p.2)).sum
     let sxx := (sel.map (fun p => p.1 * p.1)).sum
     let sxy := (sel.map (fun p => p.1 * p.2)).sum
     let slope := (n * sxy - sx * sy) / (n * sxx - sx * sx)
     let intercept := (sy - slope * sx) / n
     let ss_res : ℚ := (sel.map (fun p => (p.2 - (slope * p.1 + intercept)) ^ 2)).sum
     let ss_tot : ℚ := (sel.map (fun p => (p.2 - sy / n) ^ 2)).sum
     let r_squared := if ss_tot > 0 then 1 - ss_res / ss_tot else 0
     ((slope, r_squared) : ℚ × ℚ)) = (k, 1) := by
  dsimp only
  have hnpos : (0 : ℚ) < (sel.length : ℚ) := by
    have : 0 < sel.length := List.length_pos.mpr hne
    exact_mod_cast this
  have hd : (sel.length : ℚ) * (sel.map (fun p => p.1 * p.1)).sum -
      (sel.map (fun p => p.1)).sum * (sel.map (fun p => p.1)).sum ≠ 0 := ne_of_gt hden
  have hsy := sum_snd_of_linear (k := k) hsel
  have hsxy := sum_xy_of_linear (k := k) hsel
  have hsyy := sum_sq_snd_of_linear (k := k) hsel
  have hslope : ((sel.length : ℚ) * (sel.map (fun p => p.1 * p.2)).sum -
      (sel.map (fun p => p.1)).sum * (sel.map (fun p => p.2)).sum) /
      ((sel.length : ℚ) * (sel.map (fun p => p.1 * p.1)).sum -
        (sel.map (fun p => p.1)).sum * (sel.map (fun p => p.1)).sum) = k := by
    rw [hsy, hsxy, div_eq_iff hd]
    ring
  rw [Prod.mk.injEq]
  refine ⟨hslope, ?_⟩
  simp only [hslope]
  simp only [hsy]
  have hizero : (k * (sel.map (fun p => p.1)).sum - k * (sel.map (fun p => p.1)).sum) /
      (sel.length : ℚ) = 0 := by
    rw [sub_self, zero_div]
  simp only [hizero, add_zero]
  have hres : (sel.map (fun p => (p.2 - k * p.1) ^ 2)).sum = 0 := by
    rw [List.map_congr_left (fun p hp => by rw [hsel p hp]; ring :
      ∀ p ∈ sel, (p.2 - k * p.1) ^ 2 = (0 : ℚ))]
    simp
  have htotshape : (sel.map (fun p => (p.2 - k * (sel.map (fun q => q.1)).sum /
      (sel.length : ℚ)) ^ 2)).sum =
      ((sel.map (fun p => p.2)).map (fun y => (y - k * (sel.map (fun q => q.1)).sum /
        (sel.length : ℚ)) ^ 2)).sum := by
    rw [List.map_map]
    rfl
  have htotval : (sel.map (fun p => (p.2 - k * (sel.map (fun q => q.1)).sum /
      (sel.length : ℚ)) ^ 2)).sum =
      k ^ 2 * ((sel.length : ℚ) * (sel.map (fun p => p.1 * p.1)).sum -
        (sel.map (fun p => p.1)).sum * (sel.map (fun p => p.1)).sum) /
        (sel.length : ℚ) := by
    rw [htotshape, sum_map_sq_dev]
    have hyy : ((sel.map (fun p => p.2)).map (fun y => y ^ 2)).sum =
        k ^ 2 * (sel.map (fun p => p.1 * p.1)).sum := by
      rw [List.map_map]
      exact hsyy
    have hysum : (sel.map (fun p => p.2)).sum = k * (sel.map (fun p => p.1)).sum := hsy
    rw [hyy, hysum, List.length_map]
    field_simp
    ring
  have htotpos : 0 < (sel.map (fun p => (p.2 - k * (sel.map (fun q => q.1)).sum /
      (sel.length : ℚ)) ^ 2)).sum := by
    rw [htotval]
    apply div_pos _ hnpos
    exact mul_pos (pow_pos hk 2) hden
  rw [if_pos htotpos, hres, zero_div, sub_zero]

/-- C5: for an exactly linear specimen `stress = 20000·strain` with at
least 5 samples in the modulus strain window `[0.0005, 0.0025]` whose
window strains are not all equal (positive OLS denominator), the
computed Young's modulus is exactly 20000 MPa and `R²` is exactly 1.
Exact rational equality subsumes floating-point tolerance. -/
theorem c5_linear_modulus (stress strain : List ℚ)
    (hlin : ∀ p ∈ strain.zip stress, p.2 = 20000 * p.1)
    (hwin : 5 ≤ (modulusWindowPairs stress strain).length)
    (hden : 0 < olsDenom (modulusWindowPairs stress strain)) :
    calculateYoungsModulus (5/10000) (25/10000) stress strain = (20000, 1) := by
  have hsel : ∀ p ∈ modulusWindowPairs stress strain, p.2 = 20000 * p.1 :=
    fun p hp => hlin p (List.mem_of_mem_filter hp)
  have hne : modulusWindowPairs stress strain ≠ [] := by
    intro hz
    rw [hz] at hwin
    simp at hwin
  have hwin2 : ¬((strain.zip stress).filter
      (fun p => decide (5/10000 ≤ p.1 ∧ p.1 ≤ 25/10000))).length < 5 := by
    have h := hwin
    unfold modulusWindowPairs at h
    omega
  unfold calculateYoungsModulus
  dsimp only
  rw [if_neg hwin2, if_neg hwin2]
  exact ols_exact_fit (modulusWindowPairs stress strain) 20000 (by norm_num) hsel hne
    (by
      have h := hden
      unfold olsDenom at h
      exact h)

/-- Witness for C5: the synthetic linear specimen with strain range
`[0, 0.05]`, five window samples and `stress = 20000·strain`. -/
theorem c5_linear_modulus_witness :
    calculateYoungsModulus (5/10000) (25/10000) stressLin strainLin = (20000, 1) :=
  c5_linear_modulus stressLin strainLin
    (by norm_num [strainLin, stressLin])
    (by norm_num [modulusWindowPairs, strainLin, stressLin, List.filter])
    (by norm_num [olsDenom, modulusWindowPairs, strainLin, stressLin, List.filter])

/-- C7 (amended): with non-decreasing extensions AND nonnegative forces,
the live cumulative energy is monotonically non-decreasing across
updates, each update adding the trapezoidal increment
`0.5·(F_curr+F_prev)·Δextension` converted from N·mm to J (the first
update of a one-sample buffer adds nothing, covered by the defaults). -/
theorem c7_energy_monotone_amended (rlog : ℚ → ℚ) (g A : ℚ)
    (samples : List RawSample) (s : RawSample) (a1 a2 : ResultsAnalyzer)
    (hf : ∀ x ∈ samples ++ [s], 0 ≤ x.force)
    (hext : List.Chain' (fun u v : RawSample => u.extension ≤ v.extension) (samples ++ [s]))
    (h1 : feedAll rlog (mkResultsAnalyzer g A) samples = some a1)
    (h2 : feedAll rlog (mkResultsAnalyzer g A) (samples ++ [s]) = some a2) :
    a1.live.energy_absorbed ≤ a2.live.energy_absorbed ∧
    a2.live.energy_absorbed = a1.live.energy_absorbed +
      ((samples.map (fun u => u.force)).getLastD s.force + s.force) / 2 *
        (s.extension - (samples.map (fun u => u.extension)).getLastD s.extension) / 1000 := by
  obtain ⟨⟨_, _, hcen1⟩, hf1, he1, _⟩ :=
    feedAll_spec rlog samples (mkResultsAnalyzer g A) a1 (coherent_init g A) h1
  obtain ⟨⟨_, _, hcen2⟩, hf2, he2, _⟩ :=
    feedAll_spec rlog (samples ++ [s]) (mkResultsAnalyzer g A) a2 (coherent_init g A) h2
  have hf1c : a1.force_data = samples.map (fun u => u.force) := by
    simpa [mkResultsAnalyzer] using hf1
  have he1c : a1.extension_data = samples.map (fun u => u.extension) := by
    simpa [mkResultsAnalyzer] using he1
  have hf2c : a2.force_data = samples.map (fun u => u.force) ++ [s.force] := by
    simpa [mkResultsAnalyzer, List.map_append] using hf2
  have he2c : a2.extension_data = samples.map (fun u => u.extension) ++ [s.extension] := by
    simpa [mkResultsAnalyzer, List.map_append] using he2
  by_cases hse : samples = []
  · subst hse
    have h1e : a1.live.energy_absorbed = 0 := by
      rw [hcen1, hf1c, he1c]
      norm_num [trapz]
    have h2e : a2.live.energy_absorbed = 0 := by
      rw [hcen2, hf2c, he2c]
      norm_num [trapz]
    rw [h1e, h2e]
    norm_num
  · have hmapne : samples.map (fun u => u.force) ≠ [] := by
      simpa using hse
    have hmapne2 : samples.map (fun u => u.extension) ≠ [] := by
      simpa using hse
    have hlen : (samples.map (fun u => u.force)).length =
        (samples.map (fun u => u.extension)).length := by
      rw [List.length_map, List.length_map]
    have heq : a2.live.energy_absorbed = a1.live.energy_absorbed +
        ((samples.map (fun u => u.force)).getLastD s.force + s.force) / 2 *
          (s.extension - (samples.map (fun u => u.extension)).getLastD s.extension) / 1000 := by
      rw [hcen2, hf2c, he2c,
        trapz_snoc (samples.map (fun u => u.force)) (samples.map (fun u => u.extension))
          s.force s.extension hmapne hlen,
        hcen1, hf1c, he1c,
        getLastD_irrel (samples.map (fun u => u.force)) 0 s.force hmapne,
        getLastD_irrel (samples.map (fun u => u.extension)) 0 s.extension hmapne2]
      ring
    refine ⟨?_, heq⟩
    rw [heq]
    have hlastf : 0 ≤ (samples.map (fun u => u.force)).getLastD s.force := by
      have hm := getLastD_mem (samples.map (fun u => u.force)) s.force hmapne
      obtain ⟨u, hu, hue⟩ := List.mem_map.mp hm
      rw [← hue]
      exact hf u (List.mem_append_left _ hu)
    have hsf : 0 ≤ s.force := hf s (List.mem_append_right _ (by simp))
    have hlaste : (samples.map (fun u => u.extension)).getLastD s.extension ≤ s.extension := by
      obtain ⟨_, _, hlink⟩ := List.chain'_append.mp hext
      have hglast : samples.getLast? = some (samples.getLastD ⟨0, 0, 0⟩) :=
        getLast?_eq_getLastD samples ⟨0, 0, 0⟩ hse
      have hle := hlink (samples.getLastD ⟨0, 0, 0⟩) (by rw [hglast]; rfl) s rfl
      have hchg : (samples.map (fun u => u.extension)).getLastD s.extension =
          (samples.getLastD ⟨0, 0, 0⟩).extension := by
        rw [getLastD_irrel (samples.map (fun u => u.extension)) s.extension
          ((fun u => u.extension) (⟨0, 0, 0⟩ : RawSample)) hmapne2]
        exact getLastD_map (fun u => u.extension) samples ⟨0, 0, 0⟩
      rw [hchg]
      exact hle
    have hinc : 0 ≤ ((samples.map (fun u => u.force)).getLastD s.force + s.force) / 2 *
        (s.extension - (samples.map (fun u => u.extension)).getLastD s.extension) / 1000 := by
      apply div_nonneg _ (by norm_num)
      apply mul_nonneg
      · apply div_nonneg _ (by norm_num)
        exact add_nonneg hlastf hsf
      · exact sub_nonneg.mpr hlaste
    linarith

/-- Witness for C7 (amended) on two rising nonnegative samples. -/
theorem c7_energy_monotone_amended_witness :
    a7one.live.energy_absorbed ≤ a7two.live.energy_absorbed :=
  (c7_energy_monotone_amended rl0 50 40 [⟨0, 10, 0⟩] ⟨1, 20, 1⟩ a7one a7two
    (by norm_num)
    (by norm_num [List.chain'_cons, List.chain'_singleton])
    (feedAll_mk_eq rl0 50 40 [⟨0, 10, 0⟩] (by norm_num) (by norm_num))
    (feedAll_mk_eq rl0 50 40 [⟨0, 10, 0⟩, ⟨1, 20, 1⟩] (by norm_num) (by norm_num))).1

end TensileTester
